import Mathlib

/-!
Verification of the htmldoom element core (src/htmldoom/elements.py) against its
natural-language specification.  The Python classes `_DOMCitizen`, `_RawText`,
`_Text`, `_Comment`, `DocType`, `_Tag`, `_LeafTag`, `_SingleChildTag` and
`_CompositeTag`, together with the formatting helpers `double_quote`,
`fmt_prop`, `fmt_props` and `tmf_props`, are shallowly embedded below.  Every
node computes its rendered text (`html`) and its hash (`_hash`) eagerly at
construction, mirroring `_set_dom_properties`; the child-attaching `__call__`
of single-child and composite tags is embedded as a pure function that builds
the fresh node (the dynamically created class is represented by an explicit
fresh class identity).  The process-wide `functools.lru_cache` memoization is
embedded as an explicit LRU cache state whose stored values are object
identities.
-/

namespace Htmldoom

/-- A stand-in for Python's built-in string hash: the only properties the code
relies on are that it is a deterministic function of the string.  `_set_dom_properties`
stores `hash(html)` next to `html`. -/
def pyHash (s : String) : Nat :=
  s.hash.toNat

/-- Python exceptions that the embedded code can raise. -/
inductive PyError
  | attributeError (msg : String)
  | nameError (missing : String)
  deriving DecidableEq

/-- Per-character behaviour of Python's `html.escape(s)` (quote=True), which
`_Text.__init__` and `_Comment.__init__` apply: sequentially replaces
the five significant characters by their entities.  Since none of the
replacement strings contains a character that a later replacement rewrites,
the sequential replacements coincide with this character-wise map. -/
def escapeChar (c : Char) : String :=
  if c = '&' then "&amp;"
  else if c = '<' then "&lt;"
  else if c = '>' then "&gt;"
  else if c = '\x22' then "&quot;"
  else if c = '\x27' then "&#x27;"
  else String.singleton c

/-- Character-list form of `html.escape`. -/
def escapeList : List Char → List Char
  | [] => []
  | c :: rest => (escapeChar c).data ++ escapeList rest

/-- Python's `html.escape(s)` with default quoting, as used by the source. -/
def escape (s : String) : String :=
  String.mk (escapeList s.data)

/-- Per-character behaviour of `txt.replace('"', '\\"')` inside `double_quote`:
a double quote becomes backslash/double-quote, all other characters are kept. -/
def dqChar (c : Char) : String :=
  if c = '\x22' then "\\\"" else String.singleton c

/-- Character-list form of `txt.replace('"', '\\"')`. -/
def dqList : List Char → List Char
  | [] => []
  | c :: rest => (dqChar c).data ++ dqList rest

/-- `double_quote` from the source: `'"{}"'.format(txt.replace('"', '\\"'))`. -/
def double_quote (txt : String) : String :=
  "\"" ++ String.mk (dqList txt.data) ++ "\""

/-- The predicate behind `re.sub("[a-zA-Z_]", "", key)` in `fmt_prop`:
whether a character is an ASCII letter or an underscore. -/
def isAlphaOrUnderscore (c : Char) : Bool :=
  c.isAlpha || c = '_'

/-- `re.sub("[a-zA-Z_]", "", key)`: the key with every ASCII letter and
underscore removed. -/
def re_sub_alpha (key : String) : String :=
  String.mk (key.data.filter (fun c => !(isAlphaOrUnderscore c)))

/-- `fmt_prop` from the source: a `None` value renders the bare key when
`re.sub("[a-zA-Z_]", "", key)` is empty (falsy) and the double-quoted key
otherwise; a string value renders `key=double_quote(val)`. -/
def fmt_prop (key : String) (val : Option String) : String :=
  match val with
  | none => if re_sub_alpha key ≠ "" then double_quote key else key
  | some v => key ++ "=" ++ double_quote v

/-- `fmt_props` from the source: empty props render as the empty string,
otherwise a single leading space followed by the space-joined fragments. -/
def fmt_props (props : List (String × Option String)) : String :=
  if props.isEmpty then ""
  else " " ++ String.intercalate " " (props.map (fun p => fmt_prop p.1 p.2))

/-- Faithful embedding of `tmf_props` from the source.  Its loop body reads
the local name `v` (`if not v:`) but `v` is never assigned anywhere in the
function or the module, so Python raises `NameError: name 'v' is not defined`
as soon as the loop runs, i.e. for every non-empty props mapping; empty props
return the empty string before the loop. -/
def tmf_props (props : List (String × Option String)) : Except PyError String :=
  if props.isEmpty then Except.ok ""
  else Except.error (PyError.nameError "v")

/-- Whether a tag class derives from `_LeafTag`, `_SingleChildTag` or
`_CompositeTag`. -/
inductive TagKind
  | leaf
  | singleChild
  | composite
  deriving DecidableEq

/-- The concrete Python class of a node.  The abstract bases are never
instantiated; `tagC` is a statically declared tag class (`Div`, `Br`, ...),
and `freshTagC` is one of the anonymous classes created by
`type(cls.__name__, cls.__bases__, cls.__dict__.copy())` inside
`_SingleChildTag.__call__` / `_CompositeTag.__call__`; each such call to
`type` yields a distinct class object, represented by the `id` field. -/
inductive NodeClass
  | rawTextC
  | textC
  | commentC
  | docTypeC
  | tagC (kind : TagKind) (tagname : String)
  | freshTagC (kind : TagKind) (tagname : String) (id : Nat)
  deriving DecidableEq

/-- The `tagname` class attribute of a tag class (empty for non-tags, which
never read it). -/
def NodeClass.tagname : NodeClass → String
  | .tagC _ tn => tn
  | .freshTagC _ tn _ => tn
  | _ => ""

/-- The class produced by `type(cls.__name__, cls.__bases__, cls.__dict__.copy())`
for a given originating class: a fresh class object with the same `tagname`
and the same bases, identified by `id`. -/
def NodeClass.freshOf : NodeClass → Nat → NodeClass
  | .tagC k tn, id => .freshTagC k tn id
  | .freshTagC k tn _, id => .freshTagC k tn id
  | c, _ => c

/-- A `_DOMCitizen` instance: its concrete class, the `props` mapping (an
insertion-ordered dict, so an association list with unique keys), and the two
values frozen by `_set_dom_properties`: the rendered text `html` and
`_hash = hash(html)`.  The `value`/`child`/`children` slots of the concrete
classes are not stored: they are only re-read by `__repr__`, and their whole
contribution to the behaviour under verification is already folded into
`html` at construction time, exactly as in the source. -/
structure DOMNode where
  cls : NodeClass
  props : List (String × Option String)
  html : String
  hashv : Nat

/-- `_DOMCitizen._set_dom_properties`: freeze the rendered text and its hash
(the class and props having been fixed by the constructor). -/
def set_dom_properties (cls : NodeClass) (props : List (String × Option String))
    (html : String) : DOMNode :=
  { cls := cls, props := props, html := html, hashv := pyHash html }

/-- `_DOMCitizen.__eq__`: `isinstance(other, type(self)) and self.html == other.html`.
Every instantiable node class is a leaf of the class hierarchy (the statically
declared tag classes and the fresh classes made by `__call__` subclass only the
abstract bases, which are themselves never instantiated), so
`isinstance(other, type(self))` holds between two nodes exactly when their
concrete classes coincide. -/
def pyEq (a b : DOMNode) : Bool :=
  decide (a.cls = b.cls) && decide (a.html = b.html)

/-- `_DOMCitizen.__setattr__`: every attribute assignment on a constructed node,
whatever the node, the attribute name or the value, raises
`AttributeError("can't set attribute")`. -/
def dom_setattr {α : Type} (_self : DOMNode) (_name : String) (_value : α) :
    Except PyError DOMNode :=
  Except.error (PyError.attributeError "can't set attribute")

/-- `_RawText.__init__`: the rendered text is the value itself, unescaped. -/
def mkRawText (value : String) : DOMNode :=
  set_dom_properties .rawTextC [] value

/-- `_Text.__init__`: the rendered text is `escape(value)`. -/
def mkText (value : String) : DOMNode :=
  set_dom_properties .textC [] (escape value)

/-- `_Comment.__init__`: the rendered text is `<!-- escape(value) -->`. -/
def mkComment (value : String) : DOMNode :=
  set_dom_properties .commentC [] ("<!-- " ++ escape value ++ " -->")

/-- `props[k] = v` on an insertion-ordered Python dict rendered as an
association list: an existing key keeps its position and gets the new value,
a new key is appended at the end. -/
def dictInsert : List (String × Option String) → String → Option String →
    List (String × Option String)
  | [], k, v => [(k, v)]
  | p :: ps, k, v => if p.1 = k then (k, v) :: ps else p :: dictInsert ps k v

/-- The dict comprehension `{x: None for x in attrs}` in `DocType.__init__`. -/
def dictOfFlags (attrs : List String) : List (String × Option String) :=
  attrs.foldl (fun ps k => dictInsert ps k none) []

/-- `DocType.__init__`: renders `<!DOCTYPE` + formatted flag props + `>`. -/
def mkDocType (attrs : List String) : DOMNode :=
  let ps := dictOfFlags attrs
  set_dom_properties .docTypeC ps ("<!DOCTYPE" ++ fmt_props ps ++ ">")

/-- `_Tag.__init__`: starting from the keyword props (in call order), run
`for k in attrs: props[k] = None` over the positional flag attributes. -/
def mergeAttrs (attrs : List String) (props : List (String × Option String)) :
    List (String × Option String) :=
  attrs.foldl (fun ps k => dictInsert ps k none) props

/-- The claim's reading of `_Tag.__init__`, for comparison with `mergeAttrs`:
the positional flags are appended after all keyword pairs. -/
def specMergeAttrs (attrs : List String) (props : List (String × Option String)) :
    List (String × Option String) :=
  props ++ attrs.map (fun k => (k, none))

/-- `_LeafTag.__init__`: freezes `<tagname props />`. -/
def mkLeafTag (tagname : String) (attrs : List String)
    (props : List (String × Option String)) : DOMNode :=
  let ps := mergeAttrs attrs props
  set_dom_properties (.tagC .leaf tagname) ps
    ("<" ++ tagname ++ fmt_props ps ++ " />")

/-- `_SingleChildTag.__init__`: the implicit child is `_Text("")`; freezes
`<tagname props>` + child text + `</tagname>`. -/
def mkSingleChildTag (tagname : String) (attrs : List String)
    (props : List (String × Option String)) : DOMNode :=
  let ps := mergeAttrs attrs props
  set_dom_properties (.tagC .singleChild tagname) ps
    ("<" ++ tagname ++ fmt_props ps ++ ">" ++ (mkText "").html ++ "</" ++ tagname ++ ">")

/-- `_CompositeTag.__init__`: no children yet; freezes `<tagname props></tagname>`. -/
def mkCompositeTag (tagname : String) (attrs : List String)
    (props : List (String × Option String)) : DOMNode :=
  let ps := mergeAttrs attrs props
  set_dom_properties (.tagC .composite tagname) ps
    ("<" ++ tagname ++ fmt_props ps ++ ">" ++ "</" ++ tagname ++ ">")

/-- A Python value passed as content to `_SingleChildTag.__call__` or
`_CompositeTag.__call__`: a `str`, a `bytes` (carried here as its UTF-8
decoding), a DOM node, or any other object (carried as its `str()` form,
which is all the source ever computes from it). -/
inductive ChildArg
  | ofString (s : String)
  | ofBytes (utf8 : String)
  | ofNode (n : DOMNode)
  | other (strForm : String)

/-- Normalization in `__call__` followed by `str(...)` during rendering:
a `str` becomes `_Text(child)`, a `bytes` becomes `_RawText(child.decode("utf-8"))`,
and anything else is appended unchanged and rendered via `str()` — nodes
render their `html`, every other object renders its `str()` form.  There is
no type check and no error branch in the source. -/
def childStr : ChildArg → String
  | .ofString s => (mkText s).html
  | .ofBytes b => (mkRawText b).html
  | .ofNode n => n.html
  | .other r => r

/-- `_SingleChildTag.__call__`: builds a fresh class from `self`'s class,
instantiates it with `self`'s props, replaces the child and refreezes the
rendered text.  `freshId` is the identity of the class object created by
`type(...)` at this call. -/
def singleChildCall (self : DOMNode) (child : ChildArg) (freshId : Nat) : DOMNode :=
  set_dom_properties (self.cls.freshOf freshId) self.props
    ("<" ++ self.cls.tagname ++ fmt_props self.props ++ ">" ++ childStr child
      ++ "</" ++ self.cls.tagname ++ ">")

/-- `_CompositeTag.__call__`: normalizes each argument in call order, builds a
fresh class instance with `self`'s props, and refreezes the rendered text as
open tag + concatenated child texts + close tag. -/
def compositeCall (self : DOMNode) (children : List ChildArg) (freshId : Nat) : DOMNode :=
  set_dom_properties (self.cls.freshOf freshId) self.props
    ("<" ++ self.cls.tagname ++ fmt_props self.props ++ ">"
      ++ String.join (children.map childStr)
      ++ "</" ++ self.cls.tagname ++ ">")

/-- `MAX_CACHE_SIZE` from the source. -/
def MAX_CACHE_SIZE : Nat := 12800

/-- The state of one `functools.lru_cache`: the cached entries from most to
least recently used, each mapping an argument key to the identity of the
object constructed for it, plus a counter supplying fresh object identities. -/
structure CacheState (κ : Type) where
  entries : List (κ × Nat)
  nextId : Nat

/-- One call through an `lru_cache(maxsize)`-wrapped constructor: on a hit the
stored object is returned unchanged and its entry moves to the
most-recently-used position; on a miss a fresh object is constructed, inserted
as most recently used, and the least recently used entry is evicted if the
cache would exceed `maxsize`. -/
def lruCall {κ : Type} [DecidableEq κ] (maxsize : Nat) (st : CacheState κ)
    (k : κ) : Nat × CacheState κ :=
  match st.entries.find? (fun e => decide (e.1 = k)) with
  | some e =>
      (e.2, ⟨(k, e.2) :: st.entries.filter (fun e2 => decide (e2.1 ≠ k)), st.nextId⟩)
  | none =>
      let inserted := (k, st.nextId) :: st.entries
      (st.nextId,
        ⟨if maxsize < inserted.length then inserted.dropLast else inserted,
         st.nextId + 1⟩)

/-- A call through a constructor that is not wrapped in `lru_cache` (the class
`Sub` in the source lacks the decorator): every call constructs a fresh
object and the cache state is untouched. -/
def uncachedCall {κ : Type} (st : CacheState κ) (_k : κ) : Nat × CacheState κ :=
  (st.nextId, ⟨st.entries, st.nextId + 1⟩)

/-! Shared auxiliary lemmas about the embedded string operations. -/

/-- Appending strings appends their character data. -/
theorem data_append (s t : String) : (s ++ t).data = s.data ++ t.data := rfl

/-- A string with empty character data is the empty string. -/
theorem str_data_nil : ∀ (s : String), s.data = [] → s = ""
  | ⟨[]⟩, _ => rfl
  | ⟨_ :: _⟩, h => nomatch h

/-- Escaping touches nothing when none of the five significant characters occurs. -/
theorem escapeList_of_plain (l : List Char)
    (h : ∀ c ∈ l, c ∉ ['&', '<', '>', '\x22', '\x27']) : escapeList l = l := by
  induction l with
  | nil => rfl
  | cons c rest ih =>
    have hc := h c (List.mem_cons_self c rest)
    simp only [List.mem_cons, List.not_mem_nil, or_false, not_or] at hc
    obtain ⟨h1, h2, h3, h4, h5⟩ := hc
    have hrest : escapeList rest = rest := ih (fun d hd => h d (List.mem_cons_of_mem c hd))
    simp [escapeList, escapeChar, h1, h2, h3, h4, h5, hrest, String.singleton]

/-- Quote-escaping touches nothing when no double quote occurs. -/
theorem dqList_of_plain (l : List Char) (h : ∀ c ∈ l, c ≠ '\x22') : dqList l = l := by
  induction l with
  | nil => rfl
  | cons c rest ih =>
    have hc := h c (List.mem_cons_self c rest)
    have hrest : dqList rest = rest := ih (fun d hd => h d (List.mem_cons_of_mem c hd))
    simp [dqList, dqChar, hc, hrest, String.singleton]

/-- Quote-escaping never shortens the text. -/
theorem length_le_dqList (l : List Char) : l.length ≤ (dqList l).length := by
  induction l with
  | nil => simp [dqList]
  | cons c rest ih =>
    by_cases hc : c = '\x22' <;>
      simp [dqList, dqChar, hc, String.singleton] <;> omega

/-- The double-quoted form of a string is never the string itself. -/
theorem double_quote_ne (v : String) : double_quote v ≠ v := by
  intro h
  have hd := congrArg (fun s => s.data.length) h
  simp only [double_quote, data_append] at hd
  have hle := length_le_dqList v.data
  have hv : v.length = v.data.length := rfl
  simp [List.length_append] at hd
  omega

/-- C1: rendering the escaped-text node `_Text(s)` entity-escapes exactly the
five HTML-significant characters `&`, `<`, `>`, `"`, `'` occurring in `s`
(each occurrence becomes its entity, every other character is kept verbatim),
and rendering the raw-text node `_RawText(s)` returns `s` exactly, with no
escaping. -/
theorem c1_text_escaping :
    (∀ s : String, (mkText s).html = escape s ∧ (mkRawText s).html = s)
    ∧ escapeChar '&' = "&amp;"
    ∧ escapeChar '<' = "&lt;"
    ∧ escapeChar '>' = "&gt;"
    ∧ escapeChar '\x22' = "&quot;"
    ∧ escapeChar '\x27' = "&#x27;"
    ∧ (∀ c : Char, c ∉ ['&', '<', '>', '\x22', '\x27'] →
        escapeChar c = String.singleton c)
    ∧ (∀ s : String, (∀ c ∈ s.data, c ∉ ['&', '<', '>', '\x22', '\x27']) →
        (mkText s).html = s) := by
  refine ⟨fun s => ⟨rfl, rfl⟩, rfl, rfl, rfl, rfl, rfl, ?_, ?_⟩
  · intro c hc
    simp only [List.mem_cons, List.not_mem_nil, or_false, not_or] at hc
    obtain ⟨h1, h2, h3, h4, h5⟩ := hc
    simp [escapeChar, h1, h2, h3, h4, h5]
  · intro s hs
    show String.mk (escapeList s.data) = s
    rw [escapeList_of_plain s.data hs]

/-- Witness for C1 at concrete inputs. -/
theorem c1_text_escaping_witness :
    escapeChar 'x' = String.singleton 'x' ∧ (mkText "abc").html = "abc" :=
  ⟨c1_text_escaping.2.2.2.2.2.2.1 'x' (by decide),
   c1_text_escaping.2.2.2.2.2.2.2 "abc" (by decide)⟩

/-- C2 counterexample: the empty string is an admissible content argument, and
calling `Div()` with it returns a node whose rendered text equals the
original's (`str(Div()("")) == str(Div()) == "<div></div>"`), so the claimed
"the returned node's rendered text differs" fails for this input. -/
theorem c2_counterexample :
    (compositeCall (mkCompositeTag "div" [] []) [ChildArg.ofString ""] 0).html
      = (mkCompositeTag "div" [] []).html
    ∧ (mkCompositeTag "div" [] []).html = "<div></div>" := by
  exact ⟨rfl, rfl⟩

/-- C2 (amended): calling a single-child or composite tag is a pure
clone-on-call operation — the original node keeps its frozen rendered text
(in particular `str(Div()) = "<div></div>"`), and the returned node renders
the same opening and closing tags around the normalized content, so its
rendered text differs from the original's whenever the content renders to a
non-empty string. -/
theorem c2_clone_on_call :
    (∀ (tn : String) (attrs : List String) (props : List (String × Option String))
        (c : ChildArg) (freshId : Nat),
        (mkCompositeTag tn attrs props).html
          = "<" ++ tn ++ fmt_props (mergeAttrs attrs props) ++ ">" ++ "</" ++ tn ++ ">"
        ∧ (compositeCall (mkCompositeTag tn attrs props) [c] freshId).html
          = "<" ++ tn ++ fmt_props (mergeAttrs attrs props) ++ ">" ++ childStr c
              ++ "</" ++ tn ++ ">"
        ∧ (childStr c ≠ "" →
            (compositeCall (mkCompositeTag tn attrs props) [c] freshId).html
              ≠ (mkCompositeTag tn attrs props).html))
    ∧ (∀ (tn : String) (attrs : List String) (props : List (String × Option String))
        (c : ChildArg) (freshId : Nat),
        (mkSingleChildTag tn attrs props).html
          = "<" ++ tn ++ fmt_props (mergeAttrs attrs props) ++ ">" ++ (mkText "").html
              ++ "</" ++ tn ++ ">"
        ∧ (singleChildCall (mkSingleChildTag tn attrs props) c freshId).html
          = "<" ++ tn ++ fmt_props (mergeAttrs attrs props) ++ ">" ++ childStr c
              ++ "</" ++ tn ++ ">"
        ∧ (childStr c ≠ "" →
            (singleChildCall (mkSingleChildTag tn attrs props) c freshId).html
              ≠ (mkSingleChildTag tn attrs props).html))
    ∧ (mkCompositeTag "div" [] []).html = "<div></div>" := by
  refine ⟨fun tn attrs props c freshId => ⟨rfl, rfl, ?_⟩,
          fun tn attrs props c freshId => ⟨rfl, rfl, ?_⟩, rfl⟩
  · intro hne h
    have hd := congrArg String.data h
    simp only [compositeCall, mkCompositeTag, set_dom_properties, NodeClass.tagname, data_append] at hd
    have hlen := congrArg List.length hd
    simp only [List.length_append] at hlen
    have hj : (String.join ([c].map childStr)).data.length = (childStr c).data.length := rfl
    have hz : (childStr c).data.length ≠ 0 := by
      intro h0
      exact hne (str_data_nil _ (List.length_eq_zero.mp h0))
    omega
  · intro hne h
    have hd := congrArg String.data h
    simp only [singleChildCall, mkSingleChildTag, set_dom_properties, NodeClass.tagname, data_append] at hd
    have hlen := congrArg List.length hd
    simp only [List.length_append] at hlen
    have he : (mkText "").html.data.length = 0 := rfl
    have hz : (childStr c).data.length ≠ 0 := by
      intro h0
      exact hne (str_data_nil _ (List.length_eq_zero.mp h0))
    omega

/-- Witness for C2 (amended) at a concrete input. -/
theorem c2_clone_on_call_witness :
    (compositeCall (mkCompositeTag "div" [] []) [ChildArg.ofString "x"] 0).html
      ≠ (mkCompositeTag "div" [] []).html :=
  (c2_clone_on_call.1 "div" [] [] (ChildArg.ofString "x") 0).2.2 (by decide)

/-- C3 counterexample: `_Text("a")` and `_RawText("a")` have identical rendered
texts (both render `"a"`), yet they are not equal, because
`_DOMCitizen.__eq__` first requires `isinstance(other, type(self))` and the
two values belong to different classes.  So equality is not defined purely on
the rendered text across node kinds. -/
theorem c3_counterexample :
    (mkText "a").html = (mkRawText "a").html
    ∧ pyEq (mkText "a") (mkRawText "a") = false := by
  exact ⟨rfl, rfl⟩

/-- C3 (amended): every constructed node stores `hash(renderedText)` as its
hash; nodes constructed with equal arguments are equal and have equal hashes;
and two nodes of the same concrete class whose rendered texts are identical
are equal, even when their attributes differ — but nodes of different classes
are unequal regardless of their rendered texts. -/
theorem c3_equality_contract :
    (∀ v : String,
        (mkRawText v).hashv = pyHash (mkRawText v).html
        ∧ (mkText v).hashv = pyHash (mkText v).html
        ∧ (mkComment v).hashv = pyHash (mkComment v).html)
    ∧ (∀ (tn : String) (attrs : List String) (props : List (String × Option String)),
        (mkLeafTag tn attrs props).hashv = pyHash (mkLeafTag tn attrs props).html
        ∧ (mkSingleChildTag tn attrs props).hashv
            = pyHash (mkSingleChildTag tn attrs props).html
        ∧ (mkCompositeTag tn attrs props).hashv
            = pyHash (mkCompositeTag tn attrs props).html)
    ∧ (∀ attrs : List String, (mkDocType attrs).hashv = pyHash (mkDocType attrs).html)
    ∧ (∀ (self : DOMNode) (c : ChildArg) (freshId : Nat),
        (singleChildCall self c freshId).hashv
          = pyHash (singleChildCall self c freshId).html)
    ∧ (∀ (self : DOMNode) (cs : List ChildArg) (freshId : Nat),
        (compositeCall self cs freshId).hashv
          = pyHash (compositeCall self cs freshId).html)
    ∧ (∀ v₁ v₂ : String, v₁ = v₂ →
        pyEq (mkText v₁) (mkText v₂) = true
        ∧ (mkText v₁).hashv = (mkText v₂).hashv)
    ∧ (∀ (tn₁ : String) (attrs₁ : List String) (props₁ : List (String × Option String))
        (tn₂ : String) (attrs₂ : List String) (props₂ : List (String × Option String)),
        tn₁ = tn₂ → attrs₁ = attrs₂ → props₁ = props₂ →
        pyEq (mkCompositeTag tn₁ attrs₁ props₁) (mkCompositeTag tn₂ attrs₂ props₂) = true
        ∧ (mkCompositeTag tn₁ attrs₁ props₁).hashv
            = (mkCompositeTag tn₂ attrs₂ props₂).hashv)
    ∧ (∀ a b : DOMNode, a.cls = b.cls → a.html = b.html → pyEq a b = true) := by
  refine ⟨fun v => ⟨rfl, rfl, rfl⟩, fun tn attrs props => ⟨rfl, rfl, rfl⟩,
          fun attrs => rfl, fun self c freshId => rfl, fun self cs freshId => rfl,
          ?_, ?_, ?_⟩
  · intro v₁ v₂ h
    subst h
    exact ⟨by simp [pyEq], rfl⟩
  · intro tn₁ attrs₁ props₁ tn₂ attrs₂ props₂ h1 h2 h3
    subst h1; subst h2; subst h3
    exact ⟨by simp [pyEq], rfl⟩
  · intro a b h1 h2
    simp [pyEq, h1, h2]

/-- Witness for C3 (amended): two `Div()("…")`-style nodes built with equal
arguments are equal, and two differently-attributed constructions
(`Div("x")` and `Div(x=None)`) that render identically and share a class are
equal. -/
theorem c3_equality_contract_witness :
    pyEq (mkText "ab") (mkText "ab") = true
    ∧ pyEq (mkCompositeTag "div" ["x"] []) (mkCompositeTag "div" [] [("x", none)]) = true :=
  ⟨(c3_equality_contract.2.2.2.2.2.1 "ab" "ab" rfl).1,
   c3_equality_contract.2.2.2.2.2.2.2 (mkCompositeTag "div" ["x"] [])
     (mkCompositeTag "div" [] [("x", none)]) rfl rfl⟩

/-- C4: calling a composite tag normalizes each content argument (string →
escaped `_Text`, bytes → unescaped `_RawText`, node → used as-is) and renders
the opening tag, the children's rendered texts concatenated in call order,
then the closing tag; in particular
`str(Div()("a &", _RawText("<b>"))) == "<div>a &amp;<b></div>"`. -/
theorem c4_composite_children_in_order :
    (∀ (self : DOMNode) (children : List ChildArg) (freshId : Nat),
        (compositeCall self children freshId).html
          = "<" ++ self.cls.tagname ++ fmt_props self.props ++ ">"
              ++ String.join (children.map childStr)
              ++ "</" ++ self.cls.tagname ++ ">")
    ∧ (∀ s : String, childStr (ChildArg.ofString s) = (mkText s).html)
    ∧ (∀ b : String, childStr (ChildArg.ofBytes b) = (mkRawText b).html)
    ∧ (∀ n : DOMNode, childStr (ChildArg.ofNode n) = n.html)
    ∧ (compositeCall (mkCompositeTag "div" [] [])
        [ChildArg.ofString "a &", ChildArg.ofNode (mkRawText "<b>")] 0).html
      = "<div>a &amp;<b></div>" :=
  ⟨fun _ _ _ => rfl, fun _ => rfl, fun _ => rfl, fun _ => rfl, by decide⟩

/-- C5: for a `None`-valued attribute, `fmt_prop` renders the bare name exactly
when the name consists solely of ASCII letters and underscores, and otherwise
renders the double-quoted name; for a string value it renders
`name="value"` with every embedded double quote backslash-escaped (and no
entity escaping of any character). -/
theorem c5_fmt_prop_contract :
    (∀ key : String,
        fmt_prop key none = key ↔ ∀ c ∈ key.data, isAlphaOrUnderscore c = true)
    ∧ (∀ key : String, (∃ c ∈ key.data, isAlphaOrUnderscore c = false) →
        fmt_prop key none = double_quote key)
    ∧ (∀ key v : String, fmt_prop key (some v) = key ++ "=" ++ double_quote v)
    ∧ (∀ v : String, double_quote v = "\"" ++ String.mk (dqList v.data) ++ "\"")
    ∧ dqChar '\x22' = "\\\""
    ∧ (∀ c : Char, c ≠ '\x22' → dqChar c = String.singleton c) := by
  have hsub : ∀ key : String,
      re_sub_alpha key = "" ↔ ∀ c ∈ key.data, isAlphaOrUnderscore c = true := by
    intro key
    constructor
    · intro h c hc
      have hdata := congrArg String.data h
      simp only [re_sub_alpha] at hdata
      by_contra hfalse
      have : c ∈ key.data.filter (fun c => !(isAlphaOrUnderscore c)) :=
        List.mem_filter.mpr ⟨hc, by simp [Bool.eq_false_iff.mpr hfalse]⟩
      rw [hdata] at this
      exact List.not_mem_nil c this
    · intro h
      have : key.data.filter (fun c => !(isAlphaOrUnderscore c)) = [] := by
        rw [List.filter_eq_nil_iff]
        intro c hc
        simp [h c hc]
      simp [re_sub_alpha, this]
  refine ⟨?_, ?_, fun _ _ => rfl, fun _ => rfl, rfl, ?_⟩
  · intro key
    constructor
    · intro h
      by_contra hfalse
      have hne : re_sub_alpha key ≠ "" := by
        intro h0
        exact hfalse ((hsub key).mp h0)
      rw [show fmt_prop key none = double_quote key from by simp [fmt_prop, hne]] at h
      exact double_quote_ne key h
    · intro h
      have h0 : re_sub_alpha key = "" := (hsub key).mpr h
      simp [fmt_prop, h0]
  · intro key h
    obtain ⟨c, hc, hcf⟩ := h
    have hne : re_sub_alpha key ≠ "" := by
      intro h0
      have := (hsub key).mp h0 c hc
      rw [hcf] at this
      exact Bool.false_ne_true this
    simp [fmt_prop, hne]
  · intro c hc
    simp [dqChar, hc]

/-- Witness for C5 at concrete inputs. -/
theorem c5_fmt_prop_contract_witness :
    fmt_prop "abc" none = "abc"
    ∧ fmt_prop "a-b" none = double_quote "a-b"
    ∧ dqChar 'x' = String.singleton 'x' :=
  ⟨(c5_fmt_prop_contract.1 "abc").mpr (by decide),
   c5_fmt_prop_contract.2.1 "a-b" (by decide),
   c5_fmt_prop_contract.2.2.2.2.2 'x' (by decide)⟩

/-- C6: attempting to assign any attribute of any constructed node fails with
`AttributeError("can't set attribute")` — `_DOMCitizen.__setattr__`, inherited
by every node kind, raises unconditionally, so no field of any node is
externally reassignable. -/
theorem c6_setattr_always_fails :
    ∀ (self : DOMNode) (name : String) (value : String),
      dom_setattr self name value
        = Except.error (PyError.attributeError "can't set attribute") :=
  fun _ _ _ => rfl

/-- After any `lruCall` with positive capacity, the key just asked for sits at
the most-recently-used position, mapped to the object just returned. -/
theorem lruCall_entries_head {κ : Type} [DecidableEq κ] (maxsize : Nat)
    (hpos : 0 < maxsize) (st : CacheState κ) (k : κ) :
    ∃ rest, (lruCall maxsize st k).2.entries = (k, (lruCall maxsize st k).1) :: rest := by
  unfold lruCall
  cases hf : st.entries.find? (fun e => decide (e.1 = k)) with
  | some e => exact ⟨_, rfl⟩
  | none =>
    cases hst : st.entries with
    | nil =>
      refine ⟨[], ?_⟩
      simp [hst, Nat.not_lt.mpr hpos]
    | cons b l =>
      by_cases hlen : maxsize < l.length + 1 + 1
      · refine ⟨(b :: l).dropLast, ?_⟩
        simp [hst, List.dropLast, hlen]
      · refine ⟨b :: l, ?_⟩
        simp [hst, hlen]

/-- A call whose key sits at the most-recently-used position is a hit and
returns the stored object. -/
theorem lruCall_hit_head {κ : Type} [DecidableEq κ] (maxsize : Nat)
    (st : CacheState κ) (k : κ) (r : Nat) (rest : List (κ × Nat))
    (h : st.entries = (k, r) :: rest) : (lruCall maxsize st k).1 = r := by
  unfold lruCall
  rw [h]
  simp [List.find?]

/-- C7: through a `functools.lru_cache` of capacity `MAX_CACHE_SIZE = 12800`,
two consecutive calls with equal arguments return the identical cached object,
whatever the cache held before: this covers every decorated callable
(`double_quote`, `fmt_prop`, `fmt_props`, `_RawText`, `_Text`, `_Comment`,
the decorated concrete tag classes, and `_SingleChildTag.__call__` /
`_CompositeTag.__call__`).  The second conjunct records the behaviour of a
constructor that is not decorated: every call yields a fresh, distinct object
— which is what the undecorated class `Sub` actually does. -/
theorem c7_cache_identity :
    (∀ (κ : Type) [DecidableEq κ] (st : CacheState κ) (k : κ),
        (lruCall MAX_CACHE_SIZE (lruCall MAX_CACHE_SIZE st k).2 k).1
          = (lruCall MAX_CACHE_SIZE st k).1)
    ∧ (∀ (κ : Type) (st : CacheState κ) (k : κ),
        (uncachedCall (uncachedCall st k).2 k).1 ≠ (uncachedCall st k).1) := by
  constructor
  · intro κ _ st k
    obtain ⟨rest, hrest⟩ := lruCall_entries_head MAX_CACHE_SIZE (by decide) st k
    exact lruCall_hit_head MAX_CACHE_SIZE _ k _ rest hrest
  · intro κ st k
    simp [uncachedCall]

/-- C8 counterexample: a content argument that is neither a string, nor bytes,
nor a node — here an object whose `str()` is `"42"`, such as the integer 42 —
is not rejected by `_CompositeTag.__call__`/`_SingleChildTag.__call__`: no
error is raised and its string form is embedded in the rendered output,
contradicting the claim that such values propagate a type error and are never
silently coerced. -/
theorem c8_counterexample :
    (compositeCall (mkCompositeTag "div" [] []) [ChildArg.other "42"] 0).html
      = "<div>42</div>"
    ∧ (singleChildCall (mkSingleChildTag "p" [] []) (ChildArg.other "42") 0).html
      = "<p>42</p>" := by
  exact ⟨rfl, rfl⟩

/-- C8 (amended): a content argument that is neither a string nor bytes is
appended to the children as-is without any type check; rendering then embeds
its `str()` form verbatim between the opening and closing tags, so a non-node
value is silently coerced into the output rather than raising an error. -/
theorem c8_other_values_coerced :
    ∀ (self : DOMNode) (strForm : String) (freshId : Nat),
      (compositeCall self [ChildArg.other strForm] freshId).html
        = "<" ++ self.cls.tagname ++ fmt_props self.props ++ ">" ++ strForm
            ++ "</" ++ self.cls.tagname ++ ">"
      ∧ (singleChildCall self (ChildArg.other strForm) freshId).html
        = "<" ++ self.cls.tagname ++ fmt_props self.props ++ ">" ++ strForm
            ++ "</" ++ self.cls.tagname ++ ">" :=
  fun _ _ _ => ⟨rfl, rfl⟩

/-- C9: `tmf_props` cannot render any non-empty attribute set: its loop body
reads the never-assigned local name `v`, so Python raises
`NameError: name 'v' is not defined` for every non-empty props mapping, while
the empty mapping returns the empty string before the loop runs. -/
theorem c9_tmf_props_nameerror :
    tmf_props [("x", some "y")] = Except.error (PyError.nameError "v")
    ∧ tmf_props [] = Except.ok "" := by
  exact ⟨rfl, rfl⟩

/-- Updating a key that is absent from a dict appends it at the end. -/
theorem dictInsert_of_fresh (props : List (String × Option String)) (k : String)
    (v : Option String) (h : ∀ p ∈ props, p.1 ≠ k) :
    dictInsert props k v = props ++ [(k, v)] := by
  induction props with
  | nil => rfl
  | cons p ps ih =>
    have hp : p.1 ≠ k := h p (List.mem_cons_self p ps)
    simp only [dictInsert, if_neg hp, List.cons_append, List.cons.injEq, true_and]
    exact ih (fun q hq => h q (List.mem_cons_of_mem p hq))

/-- `for k in attrs: props[k] = None` appends the flags after the keyword pairs
when the flag names are distinct from each other and from every keyword name. -/
theorem mergeAttrs_of_disjoint (attrs : List String)
    (props : List (String × Option String)) (hnd : attrs.Nodup)
    (hdisj : ∀ k ∈ attrs, ∀ p ∈ props, p.1 ≠ k) :
    mergeAttrs attrs props = specMergeAttrs attrs props := by
  induction attrs generalizing props with
  | nil => simp [mergeAttrs, specMergeAttrs]
  | cons k ks ih =>
    have hk : ∀ p ∈ props, p.1 ≠ k :=
      fun p hp => hdisj k (List.mem_cons_self k ks) p hp
    have hstep : mergeAttrs (k :: ks) props = mergeAttrs ks (props ++ [(k, none)]) := by
      simp [mergeAttrs, List.foldl_cons, dictInsert_of_fresh props k none hk]
    rw [hstep, ih (props ++ [(k, none)]) (List.Nodup.of_cons hnd) ?_]
    · simp [specMergeAttrs, List.append_assoc]
    · intro k2 hk2 p hp
      rcases List.mem_append.mp hp with hp1 | hp2
      · exact hdisj k2 (List.mem_cons_of_mem k hk2) p hp1
      · have hpk : p = (k, none) := List.mem_singleton.mp hp2
        rw [hpk]
        intro hkk
        have hk2k : k = k2 := hkk
        rw [hk2k] at hnd
        exact (List.nodup_cons.mp hnd).1 hk2

/-- C10 counterexample: when a positional flag name collides with a keyword
attribute name (`Tag("a", a="1", b="2")`), the flag is not merged after the
keyword pairs — `props["a"] = None` overwrites the keyword's value in place,
keeping its original position, so the rendered tag is `<tag a b="2" />` and
not the keyword-pairs-then-flags form `<tag a="1" b="2" a />`. -/
theorem c10_counterexample :
    mergeAttrs ["a"] [("a", some "1"), ("b", some "2")]
      = [("a", none), ("b", some "2")]
    ∧ mergeAttrs ["a"] [("a", some "1"), ("b", some "2")]
      ≠ specMergeAttrs ["a"] [("a", some "1"), ("b", some "2")]
    ∧ (mkLeafTag "tag" ["a"] [("a", some "1"), ("b", some "2")]).html
      = "<tag a b=\"2\" />"
    ∧ "<tag" ++ fmt_props (specMergeAttrs ["a"] [("a", some "1"), ("b", some "2")])
        ++ " />" = "<tag a=\"1\" b=\"2\" a />" := by
  refine ⟨rfl, by decide, rfl, rfl⟩

/-- C10 (amended): when no positional flag name equals a keyword attribute
name (and the flags are pairwise distinct), the flags are merged into the
attribute map after all keyword pairs, so the rendered opening tag lists the
keyword attributes first in call order, then the flags in call order — in
particular `<tagname y="z" x />`; a flag whose name collides with a keyword
attribute instead overwrites that keyword's value to `None` in place. -/
theorem c10_keywords_then_flags :
    (∀ (tn : String) (attrs : List String) (props : List (String × Option String)),
        attrs.Nodup → (∀ k ∈ attrs, ∀ p ∈ props, p.1 ≠ k) →
        mergeAttrs attrs props = specMergeAttrs attrs props
        ∧ (mkLeafTag tn attrs props).html
            = "<" ++ tn ++ fmt_props (specMergeAttrs attrs props) ++ " />")
    ∧ (mkLeafTag "tagname" ["x"] [("y", some "z")]).html = "<tagname y=\"z\" x />" := by
  refine ⟨?_, rfl⟩
  intro tn attrs props hnd hdisj
  have hm := mergeAttrs_of_disjoint attrs props hnd hdisj
  refine ⟨hm, ?_⟩
  show "<" ++ tn ++ fmt_props (mergeAttrs attrs props) ++ " />" = _
  rw [hm]

/-- Witness for C10 (amended) at a concrete input. -/
theorem c10_keywords_then_flags_witness :
    mergeAttrs ["x"] [("y", some "z")] = specMergeAttrs ["x"] [("y", some "z")] :=
  (c10_keywords_then_flags.1 "tagname" ["x"] [("y", some "z")]
    (by decide) (by decide)).1

end Htmldoom
